import Mathlib

/-!
Verification development for the multi-agent research pipeline engine.

This file gives a shallow embedding, in Lean 4, of the core runtime of the
repository (step wrapper with content-addressed caching and context
budgeting, JSON extraction, the document mutation lock, the Groq provider
pool with round-robin key rotation and rate-limit retry, the node boundary
of the LangGraph pipeline, and the PHASE-0 topic gate), together with
theorems settling the frozen claims about that runtime.

Conventions of the embedding:
* Python dictionaries parsed from JSON are modelled by the inductive `PyJson`.
* `json.loads` (an external library call that either returns a value or
  raises `JSONDecodeError`) is modelled as a parameter
  `loads : String → Option PyJson`; `none` models the raised decode error.
* Machine wall-clock time, logging and telemetry emission are not modelled:
  the event emitter in `utils/event_emitter.py` swallows every exception
  internally, so it has no effect on control flow.
* File-system effects (the on-disk cache) are modelled by explicit
  association lists threaded through the functions.
-/

namespace ResearchPipeline

/-- Model of a Python value produced by `json.loads`: JSON objects, arrays,
strings, integers, booleans and null.  (Float literals never appear in the
inputs examined here and are omitted.) -/
inductive PyJson where
  | obj : List (String × PyJson) → PyJson
  | arr : List PyJson → PyJson
  | str : String → PyJson
  | num : Int → PyJson
  | bool : Bool → PyJson
  | null : PyJson

/-- Whether a `PyJson` value is a Python `dict`. -/
def PyJson.isDict : PyJson → Bool
  | .obj _ => true
  | _ => false

/-! ### JSON extraction (`BaseAgent._extract_json`, src/ai_engine/agents/base.py lines 298-326)

The extractor tries, in order: a direct `json.loads`, a fenced
```` ```json ... ``` ```` block (regex `` ```json\s*(.*?)\s*``` `` with
`re.DOTALL`), the first-brace block (regex `(\{.*\})`, greedy, `re.DOTALL`),
and finally wraps the raw text as `{"raw_text": text}`. -/

/-- Characters matched by the regex class `\s`, modelled by `Char.isWhitespace`. -/
def isWs (c : Char) : Bool := c.isWhitespace

/-- Longest prefix of `l` strictly before the first occurrence of `pat`;
`none` when `pat` does not occur in `l`.  Models the lazy `(.*?)` capture
stopping at the closing fence. -/
def takeUntil (pat : List Char) : List Char → Option (List Char)
  | [] => none
  | c :: t =>
    if pat.isPrefixOf (c :: t) then some []
    else (takeUntil pat t).map (c :: ·)

/-- Remove trailing whitespace (the `\s*` just before the closing fence). -/
def dropTrailingWs (l : List Char) : List Char :=
  (l.reverse.dropWhile isWs).reverse

/-- Content captured by `re.search(r"```json\s*(.*?)\s*```", text, re.DOTALL)`:
after the leftmost closable occurrence of ` ```json `, leading whitespace is
consumed greedily, the lazy capture runs up to the first closing ` ``` `, and
trailing whitespace before the fence is excluded from the capture. -/
def fencedExtract : List Char → Option (List Char)
  | [] => none
  | c :: t =>
    if ("```json".toList).isPrefixOf (c :: t) then
      let rest := (c :: t).drop 7
      let restWs := rest.dropWhile isWs
      match takeUntil "```".toList restWs with
      | some content => some (dropTrailingWs content)
      | none => fencedExtract t
    else fencedExtract t

/-- Content captured by `re.search(r"(\{.*\})", text, re.DOTALL)`: from the
first `{` to the last `}`, provided the `}` comes after the `{`. -/
def braceExtract (l : List Char) : Option (List Char) :=
  match l.dropWhile (· ≠ '{') with
  | [] => none
  | l' =>
    let upToClose := (l'.reverse.dropWhile (· ≠ '}')).reverse
    if upToClose.isEmpty then none else some upToClose

/-- Step 3 and 4 of the extractor: first-brace-block parse, else raw wrap. -/
def extractBraceOrWrap (loads : String → Option PyJson) (text : String) : PyJson :=
  match braceExtract text.toList with
  | some cs =>
    match loads (String.mk cs) with
    | some v => v
    | none => .obj [("raw_text", .str text)]
  | none => .obj [("raw_text", .str text)]

/-- Model of `BaseAgent._extract_json`.  `loads` models `json.loads`; the
function is total: no parse failure escapes it, mirroring the source where
every `json.loads` call sits inside `try/except json.JSONDecodeError`. -/
def extract_json (loads : String → Option PyJson) (text : String) : PyJson :=
  match loads text with
  | some v => v
  | none =>
    match fencedExtract text.toList with
    | some cs =>
      match loads (String.mk cs) with
      | some v => v
      | none => extractBraceOrWrap loads text
    | none => extractBraceOrWrap loads text

/-! ### Context budgeting (`BaseAgent._truncate_context` / `_smart_truncate`,
src/ai_engine/agents/base.py lines 68-137)

The session state is modelled with the fields the budgeter reads: `task`,
`paper_url`, `_job_id`, and the findings map.  Each finding value is kept as
its serialized form (`entry_str = json.dumps(entry)` for `dict` entries),
since the budgeter only ever manipulates that serialization.  String values
are assumed to contain no characters needing JSON escapes, so `json.dumps`
of a flat object is modelled literally with Python's default separators. -/

/-- JSON string literal for an escape-free string. -/
def jstr (s : String) : String := "\"" ++ s ++ "\""

/-- Model of `json.dumps` on an object whose field values are already
serialized, with Python's default separators `", "` and `": "`. -/
def dumpObj (fields : List (String × String)) : String :=
  "\x7b" ++ String.intercalate ", " (fields.map fun p => jstr p.1 ++ ": " ++ p.2) ++ "\x7d"

/-- Budgeter view of the session state. -/
structure BState where
  task : String
  paper_url : String
  job_id : String
  /-- findings: step key ↦ serialized output payload (a serialized dict) -/
  findings : List (String × String)

/-- The `core` dict built at the top of `_truncate_context`. -/
def coreFields (s : BState) : List (String × String) :=
  [("task", jstr s.task), ("paper_url", jstr s.paper_url), ("_job_id", jstr s.job_id)]

/-- Model of `json.dumps(core)`. -/
def coreStr (s : BState) : String := dumpObj (coreFields s)

/-- Model of `json.dumps(state)` restricted to the modelled fields, with the
findings values embedded by their serialization. -/
def dumpState (s : BState) : String :=
  dumpObj (coreFields s ++ [("findings", dumpObj s.findings)])

/-- The fixed `priority_order` list of `_truncate_context`. -/
def priorityOrder : List String :=
  ["domain_intelligence", "historical_review", "slr",
   "gap_synthesis", "innovation_novelty", "visualization",
   "paper_decomposition", "paper_understanding"]

/-- Model of the string-slicing fallback branch of `BaseAgent._smart_truncate`
(the branch taken when the entry is not itself parseable JSON).  The
JSON-aware branches (popping list items / dict keys) are abstracted by the
`smartT` parameter of `allocFindings`; this function is the concrete
instantiation used for witnesses. -/
def smart_truncate_fb (text : String) (maxChars : Nat) : String :=
  if text.length ≤ maxChars then text
  else (text.toList.take maxChars).asString ++ "...(truncated)"

/-- The allocation loop of `_truncate_context`: walk `priority_order`; an
entry shorter than the remaining budget is included whole and the budget
decreases; the first entry that does not fit is replaced by its smart
truncation and the loop stops (`break`), dropping every later key.
`smartT` abstracts `_smart_truncate`. -/
def allocFindings (smartT : String → Nat → String)
    (findings : List (String × String)) : List String → Int → List (String × String)
  | [], _ => []
  | k :: ks, rem =>
    match findings.lookup k with
    | none => allocFindings smartT findings ks rem
    | some v =>
      if (v.length : Int) < rem then
        (k, v) :: allocFindings smartT findings ks (rem - v.length)
      else
        [(k, smartT v rem.toNat)]

/-- The remaining character budget computed by `_truncate_context`:
`max_tokens * 4 - len(core_str) - 2000`. -/
def remainingChars (s : BState) (maxTokens : Nat) : Int :=
  (maxTokens * 4 : Int) - (coreStr s).length - 2000

/-- Model of `BaseAgent._truncate_context`.  When the findings map is empty
(falsy) or the remaining budget is non-positive, the source returns
`json.dumps(state)` — the whole state, unbudgeted.  Otherwise it returns
`json.dumps({**core, "findings": truncated_findings})`. -/
def truncate_context (smartT : String → Nat → String) (s : BState) (maxTokens : Nat) : String :=
  let remaining := remainingChars s maxTokens
  if s.findings.isEmpty || remaining ≤ 0 then
    dumpState s
  else
    dumpObj (coreFields s ++
      [("findings", dumpObj (allocFindings smartT s.findings priorityOrder remaining))])

/-! ### Step wrapper (`BaseAgent.run`, src/ai_engine/agents/base.py lines 170-296)

The wrapper budgets the context, hashes
`f"{system_prompt}:{model_name}:{context}"`, consults the content-addressed
cache, and on a miss invokes the LLM, parses the output and persists the
result under the hash.  `sha256` is modelled by the identity on the hashed
string: a content key injective in its input, which is exactly the property
the code relies on.  The LLM backend (`self.llm.invoke`) is an external
collaborator modelled as `llm : String → String → Except String String`
(system prompt and budgeted context to raw content, or a raised exception's
message).  Wall-clock timing fields are omitted; the cache-hit path is
flagged by `cacheHit` (the source reports it as a zero-time success). -/

/-- Static configuration of one agent (`BaseAgent.__init__`). -/
structure AgentCfg where
  name : String
  system_prompt : String
  model_name : String
  maxContextTokens : Nat

/-- A step result: the success dict
`{response, raw, agent, input_hash, output_hash}` persisted to the cache, or
the failure dict `{"error": str(e), "raw": "Error during execution",
"agent": self.name}` returned from the `except` branch. -/
inductive StepResult where
  | ok (response : PyJson) (raw : String) (agent : String)
      (input_hash : String) (output_hash : String)
  | error (msg : String) (raw : String) (agent : String)

/-- Whether a step result is the failure dict. -/
def StepResult.isError : StepResult → Bool
  | .error _ _ _ => true
  | _ => false

/-- Model of `hashlib.sha256(...).hexdigest()` as an injective content key. -/
def computeHash (s : String) : String := s

/-- The hashed input signature `f"{self.system_prompt}:{self.model_name}:{context}"`. -/
def inputSignature (ag : AgentCfg) (context : String) : String :=
  ag.system_prompt ++ ":" ++ ag.model_name ++ ":" ++ context

/-- The response cache, modelled as an association list keyed by the input
hash.  Entries are only ever created by `_save_to_cache` on the success
path, so every stored value is a non-empty dict and the Python truthiness
test `if cached_result:` in `run` is equivalent to presence. -/
abbrev Cache := List (String × StepResult)

/-- Output of one `BaseAgent.run` invocation. -/
structure RunOut where
  result : StepResult
  cache : Cache
  /-- number of underlying `self.llm.invoke` executions in this invocation -/
  llmCalls : Nat
  /-- true when the result was served from the cache (zero-time success) -/
  cacheHit : Bool

/-- Model of `BaseAgent.run`.  Cache hit returns the stored entry with no
inference; cache miss invokes the LLM, and on success extracts JSON and
persists the result under the input hash; an exception raised by the
invocation is caught and turned into the failure dict without touching the
cache. -/
def runStep (loads : String → Option PyJson) (llm : String → String → Except String String)
    (ag : AgentCfg) (cache : Cache) (st : BState) : RunOut :=
  let context := truncate_context smart_truncate_fb st ag.maxContextTokens
  let key := computeHash (inputSignature ag context)
  match cache.lookup key with
  | some r => ⟨r, cache, 0, true⟩
  | none =>
    match llm ag.system_prompt context with
    | .error e => ⟨.error e "Error during execution" ag.name, cache, 1, false⟩
    | .ok raw =>
      let res : StepResult := .ok (extract_json loads raw) raw ag.name key (computeHash raw)
      ⟨res, (key, res) :: cache, 1, false⟩

/-! ### Node boundary (`run_agent`, src/ai_engine/graph/full_pipeline.py lines 59-125)

`run_agent` calls `agent.run(state)` inside a `try`.  An exception escaping
the agent is caught at the node boundary and the function returns
`{"history": [f"{agent.name}: FAILED - {e}"]}` — with no findings update.
A returned dict is stored in the findings under the agent key: its
`"response"` value when present, otherwise the whole dict (which is how the
step wrapper's failure dict `{error, raw, agent}` lands in findings), and a
history line is appended.  The formatted elapsed seconds in the history
line are wall-clock and omitted from the model. -/

/-- The step wrapper's failure dict as the JSON value stored in findings. -/
def errorPayload (msg raw agent : String) : PyJson :=
  .obj [("error", .str msg), ("raw", .str raw), ("agent", .str agent)]

/-- What `run_agent` stores under the agent's findings key:
`result.get("response")` when the key exists, else the whole result dict. -/
def findingsPayload : StepResult → PyJson
  | .ok resp _ _ _ _ => resp
  | .error e raw ag => errorPayload e raw ag

/-- The partial state update returned by a node: the findings entries and
history lines to be merged by the graph's reducers. -/
structure NodeUpd where
  findings : List (String × PyJson)
  history : List String

/-- Model of `run_agent`.  `outcome` is the result of `agent.run(state)`:
`Except.error e` models an exception escaping the agent into the node
boundary's `except` clause. -/
def run_agent (agentName agentKey : String) (outcome : Except String StepResult) : NodeUpd :=
  match outcome with
  | .error e => ⟨[], [agentName ++ ": FAILED - " ++ e]⟩
  | .ok r => ⟨[(agentKey, findingsPayload r)], [agentName ++ ": Completed"]⟩

/-! ### Document mutation lock (`DocumentLock`, src/ai_engine/utils/document_lock.py)

The singleton table maps job id to `{owner, acquired_at, version}`
(`acquired_at` is wall-clock and omitted).  `acquire` inserts a fresh record
with `version = 1` when no record exists, succeeds reentrantly for the same
owner, and otherwise polls until timeout; in this single-threaded model,
where no concurrent release can occur during the poll, the timeout outcome
`False` is returned directly.  `release` deletes the record when the owner
matches (or is the privileged `"force"`), and `increment_version` bumps the
version of a held record, returning `0` for an unheld one. -/

/-- Lock record for one document. -/
structure LockInfo where
  owner : String
  version : Nat
deriving DecidableEq

/-- The singleton lock table. -/
abbrev LockTable := List (String × LockInfo)

/-- Model of `DocumentLock.acquire`. -/
def acquire (tbl : LockTable) (job owner : String) : Bool × LockTable :=
  match tbl.lookup job with
  | none => (true, (job, ⟨owner, 1⟩) :: tbl)
  | some info => if info.owner == owner then (true, tbl) else (false, tbl)

/-- Model of `DocumentLock.release`. -/
def release (tbl : LockTable) (job owner : String) : Bool × LockTable :=
  match tbl.lookup job with
  | some info =>
    if info.owner == owner || owner == "force" then
      (true, tbl.eraseP (fun p => p.1 == job))
    else (false, tbl)
  | none => (true, tbl)

/-- Model of `DocumentLock.increment_version`. -/
def increment_version (tbl : LockTable) (job : String) : Nat × LockTable :=
  match tbl.lookup job with
  | some info =>
    (info.version + 1,
     tbl.map fun p => if p.1 == job then (p.1, ⟨p.2.owner, p.2.version + 1⟩) else p)
  | none => (0, tbl)

/-- Model of `DocumentLock.get_version`. -/
def get_version (tbl : LockTable) (job : String) : Nat :=
  match tbl.lookup job with
  | some info => info.version
  | none => 0

/-- Model of `DocumentLock.is_locked`. -/
def is_locked (tbl : LockTable) (job : String) : Bool :=
  (tbl.lookup job).isSome

/-! ### Groq provider pool (`GroqProvider`, src/ai_engine/llm/groq_provider.py)

State: the round-robin cursor `_key_index`, the per-index client cache
`_llm_cache` (modelled as the list of indices holding a cached client), and
`_rate_limit_hits` (modelled as the list of recorded hit indices; the
per-index counter is the count of that index in the list).  `K` is the
number of configured credentials.  The created `ChatGroq` client objects
carry no modelled state beyond their index. -/

/-- Groq provider mutable state. -/
structure GroqSt where
  keyIndex : Nat
  cache : List Nat
  hits : List Nat
deriving DecidableEq

/-- Model of `GroqProvider._get_next_key_index`: return the current index and
advance the cursor modulo `max(len(api_keys), 1)`. -/
def getNextKeyIndex (K : Nat) (st : GroqSt) : Nat × GroqSt :=
  (st.keyIndex, { st with keyIndex := (st.keyIndex + 1) % max K 1 })

/-- Model of `GroqProvider.get_langchain_llm` for a pool with at least one
key: rotate the cursor, and create-and-cache a client for the selected index
unless one is already cached. -/
def get_langchain_llm (K : Nat) (st : GroqSt) : Nat × GroqSt :=
  let (idx, st1) := getNextKeyIndex K st
  (idx, if idx ∈ st1.cache then st1 else { st1 with cache := idx :: st1.cache })

/-- `n` sequential handle constructions: the selected credential indices in
order, and the final provider state. -/
def handleSeq (K : Nat) (st : GroqSt) : Nat → List Nat × GroqSt
  | 0 => ([], st)
  | n + 1 =>
    let (i, st1) := get_langchain_llm K st
    let (rest, st2) := handleSeq K st1 n
    (i :: rest, st2)

/-- Substring test on character lists (used to model Python's `in` on `str`). -/
def listContainsSub : List Char → List Char → Bool
  | [], p => p.isEmpty
  | c :: t, p => p.isPrefixOf (c :: t) || listContainsSub t p

/-- Python `pat in hay` for strings. -/
def containsSub (hay pat : String) : Bool := listContainsSub hay.toList pat.toList

/-- Model of Python's `str.lower()`: lowercase character by character. -/
def lowerStr (s : String) : String := ⟨s.data.map Char.toLower⟩

/-- The rate-limit classifier of `invoke_with_retry`: lowercase the error
text and match any of the markers `"429"`, `"rate_limit"`, `"rate limit"`,
`"too many requests"`. -/
def isRateLimitErr (e : String) : Bool :=
  let l := lowerStr e
  containsSub l "429" || containsSub l "rate_limit" ||
    containsSub l "rate limit" || containsSub l "too many requests"

/-- `MAX_RETRIES` from groq_provider.py. -/
def MAX_RETRIES : Nat := 3

/-- Outcome of `invoke_with_retry`: a response or a re-raised exception. -/
inductive RetryOutcome where
  | ok (resp : String)
  | raise (e : String)
deriving DecidableEq

/-- Observable trace of one `invoke_with_retry` call: number of underlying
`llm.invoke` executions, the backoff sleeps in seconds (the initial 1.0s
backoff doubles after each rate-limited attempt; powers of two are exact in
binary floating point, so seconds are modelled as naturals), and the cache
indices discarded by `self._llm_cache.pop(current_idx, None)`. -/
structure RetryTrace where
  invokes : Nat
  sleeps : List Nat
  discarded : List Nat
deriving DecidableEq

/-- Python's `(self._key_index - 1) % len(self.api_keys)` — the subtraction
can be negative, and Python `%` is a true (floor) modulus. -/
def pyPrevIndex (K idx : Nat) : Nat := ((((idx : Int) - 1) % (K : Int))).toNat

/-- The retry loop of `GroqProvider.invoke_with_retry`.  `oracle a` is the
outcome of the underlying `llm.invoke` at attempt `a` (an external
collaborator); `fuel` counts the remaining loop iterations of
`for attempt in range(MAX_RETRIES)`.  A rate-limited attempt with more than
one credential records the hit, discards the cached client of the
just-used credential, sleeps for `backoff`, doubles the backoff and
continues; any other error is re-raised at once; exhausting the loop
re-raises the last exception. -/
def invokeWithRetryGo (K : Nat) (oracle : Nat → Except String String) :
    Nat → Nat → Nat → GroqSt → Option String → RetryOutcome × GroqSt × RetryTrace
  | 0, _, _, st, lastExc =>
    (.raise (lastExc.getD "All Groq API retries exhausted"), st, ⟨0, [], []⟩)
  | fuel + 1, attempt, backoff, st, _ =>
    let p := get_langchain_llm K st
    match oracle attempt with
    | .ok r => (.ok r, p.2, ⟨1, [], []⟩)
    | .error e =>
      if isRateLimitErr e && decide (1 < K) then
        let cur := pyPrevIndex K p.2.keyIndex
        let st2 : GroqSt := { p.2 with hits := cur :: p.2.hits, cache := p.2.cache.erase cur }
        let rec' := invokeWithRetryGo K oracle fuel (attempt + 1) (backoff * 2) st2 (some e)
        (rec'.1, rec'.2.1,
         ⟨rec'.2.2.invokes + 1, backoff :: rec'.2.2.sleeps, cur :: rec'.2.2.discarded⟩)
      else
        (.raise e, p.2, ⟨1, [], []⟩)
  termination_by fuel => fuel

/-- Model of `GroqProvider.invoke_with_retry`. -/
def invoke_with_retry (K : Nat) (oracle : Nat → Except String String) (st : GroqSt) :
    RetryOutcome × GroqSt × RetryTrace :=
  invokeWithRetryGo K oracle MAX_RETRIES 0 1 st none

/-! ### PHASE-0 topic gate
(`topic_gate` and the topic nodes in src/ai_engine/graph/full_pipeline.py
lines 131-153 and 271-285; `TopicDiscoveryAgent.run` /
`TopicLockAgent.run` in src/ai_engine/agents/topic/agents.py)

The graph state fields involved are `topic_locked`, `selected_topic` and
`topic_suggestions`; the external session state store (`state_store.py`,
`RESEARCH_STATES[job_id]`) holds the same three fields and is written by the
`/research/update-state` endpoint when the user selects a topic.
Suggestions are modelled by their titles.  Python's `None` and an absent
dict key are conflated (every consumer reads them through `.get`). -/

/-- Gate-relevant slice of the graph state. -/
structure TState where
  task : String
  topic_locked : Bool
  selected_topic : Option String
  topic_suggestions : List String
deriving DecidableEq

/-- One entry of the external session state store. -/
structure ExtState where
  topic_locked : Bool
  selected_topic : Option String
  topic_suggestions : List String
deriving DecidableEq

/-- The dict returned by a topic agent's `run` (only the gate-relevant
keys; `none` in `topic_suggestions` models an absent key). -/
structure TopicDict where
  topic_locked : Bool
  selected_topic : Option String
  topic_suggestions : Option (List String)
deriving DecidableEq

/-- Outcome of the LLM call plus `_extract_json` inside
`TopicDiscoveryAgent.run`: either the invocation raised, or it produced a
parsed result with the fields the agent reads (`hasRawText` is true when
`_extract_json` fell back to the `{"raw_text": ...}` wrap, which the agent
turns into a `ValueError`). -/
inductive DiscOut where
  | exn (e : String)
  | parsed (hasRawText : Bool) (isSpecific : Bool)
      (selected : Option String) (suggestions : List String)

/-- The fallback title fabricated by `TopicDiscoveryAgent.run`'s `except`
branch: `f"A Comprehensive Survey on {task}"`. -/
def fallbackTitle (task : String) : String := "A Comprehensive Survey on " ++ task

/-- The fallback return dict of `TopicDiscoveryAgent.run` (lines 226-241):
auto-locks the fabricated survey title. -/
def discoveryFallback (task : String) : TopicDict :=
  ⟨true, some (fallbackTitle task), some [fallbackTitle task]⟩

/-- Model of `TopicDiscoveryAgent.run`.  Branches, in source order: topic
already locked → no-op returning the stored topic; suggestions already in
the graph state → consult the external store (return its lock when
satisfied, else re-publish the suggestions and keep waiting); otherwise
invoke the LLM: a specific topic auto-locks, a vague one publishes
suggestions to the external store and waits, and any exception (or
non-JSON output) takes the auto-locking fallback.  Returns the agent's
dict and the updated external store entry. -/
def topicDiscoveryRun (oracle : DiscOut) (ext : Option ExtState) (st : TState) :
    TopicDict × Option ExtState :=
  if st.topic_locked then
    (⟨true, st.selected_topic, none⟩, ext)
  else if !st.topic_suggestions.isEmpty then
    match ext with
    | some es =>
      if es.topic_locked then
        (⟨true, es.selected_topic, none⟩, ext)
      else
        (⟨false, none, some st.topic_suggestions⟩,
         some { es with topic_suggestions := st.topic_suggestions, topic_locked := false })
    | none =>
      (⟨false, none, some st.topic_suggestions⟩,
       some ⟨false, none, st.topic_suggestions⟩)
  else
    match oracle with
    | .exn _ => (discoveryFallback st.task, ext)
    | .parsed hasRawText isSpecific selected suggestions =>
      if hasRawText then
        (discoveryFallback st.task, ext)
      else if isSpecific then
        (⟨true, some (selected.getD st.task), some []⟩, ext)
      else
        (⟨false, none, some suggestions⟩,
         some (match ext with
           | some es => { es with topic_suggestions := suggestions, topic_locked := false }
           | none => ⟨false, none, suggestions⟩))

/-- Model of `TopicLockAgent.run`.  Branches, in source order: an explicit
`selected_topic` in the graph state locks; a valid `selected_topic_index`
into non-empty suggestions locks; a satisfied external store entry locks;
otherwise the agent keeps waiting. -/
def topicLockRun (ext : Option ExtState) (selIdx : Option Nat) (st : TState) : TopicDict :=
  match st.selected_topic with
  | some title => ⟨true, some title, none⟩
  | none =>
    match selIdx, st.topic_suggestions with
    | some i, t :: ts =>
      if h : i < (t :: ts).length then
        ⟨true, some ((t :: ts).get ⟨i, h⟩), none⟩
      else topicLockExternal ext
    | _, _ => topicLockExternal ext
where
  /-- The external-store check and waiting tail of `TopicLockAgent.run`. -/
  topicLockExternal (ext : Option ExtState) : TopicDict :=
    match ext with
    | some es => if es.topic_locked then ⟨true, es.selected_topic, none⟩ else ⟨false, none, none⟩
    | none => ⟨false, none, none⟩

/-- The dict returned by `run_agent` for a topic agent: exactly the keys
`"findings"` and `"history"` (full_pipeline.py line 114); the agent's raw
dict survives only inside the findings payload. -/
structure RunAgentOut where
  findings : List (String × TopicDict)
  history : List String

/-- Model of `run_agent` specialised to the topic agents (the success
branch; the dict goes into findings whole or via its `"response"` value,
which the gate never reads). -/
def run_agent_topic (agentName agentKey : String) (dict : TopicDict) : RunAgentOut :=
  ⟨[(agentKey, dict)], [agentName ++ ": Completed"]⟩

/-- `result.get("topic_locked", False)` evaluated on a `run_agent` return
value: the dict has only the keys `"findings"` and `"history"`, so the
default `False` always fires. -/
def raGetTopicLocked (_ra : RunAgentOut) : Bool := false

/-- `result.get("selected_topic")` evaluated on a `run_agent` return value:
the key is absent, so the result is `None`. -/
def raGetSelectedTopic (_ra : RunAgentOut) : Option String := none

/-- `result.get("topic_suggestions", [])` evaluated on a `run_agent` return
value: the key is absent, so the default `[]` fires. -/
def raGetTopicSuggestions (_ra : RunAgentOut) : List String := []

/-- Model of `topic_discovery_node` (full_pipeline.py lines 131-141): runs
the discovery agent through `run_agent` and merges
`{"topic_suggestions": result.get("topic_suggestions", []),
"topic_locked": result.get("topic_locked", False), **result}` into the
graph state (the findings/history merges are not tracked in `TState`). -/
def topic_discovery_node (oracle : DiscOut) (ext : Option ExtState) (st : TState) :
    TState × Option ExtState :=
  let r := topicDiscoveryRun oracle ext st
  let ra := run_agent_topic "TopicDiscovery" "topic_discovery" r.1
  ({ st with topic_suggestions := raGetTopicSuggestions ra,
             topic_locked := raGetTopicLocked ra }, r.2)

/-- Model of `topic_lock_node` (full_pipeline.py lines 143-153): runs the
lock agent through `run_agent` and merges
`{"topic_locked": result.get("topic_locked", False),
"selected_topic": result.get("selected_topic"), **result}`. -/
def topic_lock_node (ext : Option ExtState) (selIdx : Option Nat) (st : TState) : TState :=
  let dict := topicLockRun ext selIdx st
  let ra := run_agent_topic "TopicLock" "topic_lock" dict
  { st with topic_locked := raGetTopicLocked ra,
            selected_topic := raGetSelectedTopic ra }

/-- Targets of the conditional edge out of `topic_lock`. -/
inductive GateRoute where
  | orchestrator
  | topic_discovery
deriving DecidableEq

/-- Model of the `topic_gate` predicate (full_pipeline.py lines 271-285). -/
def topic_gate (st : TState) : GateRoute :=
  if st.topic_locked then .orchestrator else .topic_discovery

/-- One loop of the gate cycle `topic_discovery → topic_lock`. -/
def gateRound (oracle : DiscOut) (selIdx : Option Nat) (ext : Option ExtState) (st : TState) :
    TState × Option ExtState :=
  let r := topic_discovery_node oracle ext st
  (topic_lock_node r.2 selIdx r.1, r.2)

/-- `n` consecutive gate rounds, with a per-round LLM oracle and
`selected_topic_index` input. -/
def gateIter (oracles : Nat → DiscOut) (selIdx : Nat → Option Nat) :
    Nat → Option ExtState → TState → TState × Option ExtState
  | 0, ext, st => (st, ext)
  | n + 1, ext, st =>
    let r := gateRound (oracles n) (selIdx n) ext st
    gateIter oracles selIdx n r.2 r.1

/-! ### Concrete instances used by witnesses and counterexamples -/

/-- A `json.loads` behavior that fails on every input (e.g. plain prose). -/
def loadsNone : String → Option PyJson := fun _ => none

/-- Restriction of `json.loads` to the input `"[1, 2]"`, on which the real
`json.loads` returns the list `[1, 2]` — not a dict. -/
def loadsListStub : String → Option PyJson := fun s =>
  if s = "[1, 2]" then some (.arr [.num 1, .num 2]) else none

/-- Example agent configuration (the SLR step). -/
def agSLR : AgentCfg := ⟨"SLR", "You are the SLR agent.", "llama3-70b-8192", 4096⟩

/-- Example session state with no findings yet. -/
def stEx : BState := ⟨"transformers", "", "7", []⟩

/-- An LLM backend returning a fixed non-JSON completion. -/
def llmOk : String → String → Except String String := fun _ _ => .ok "plain completion"

/-- An LLM backend raising on every call. -/
def llmBoom : String → String → Except String String := fun _ _ => .error "boom"

/-- Example state for the budgeter counterexample: one finding present. -/
def csEx : BState := ⟨"t", "", "1", [("slr", "SLRDATA")]⟩

/-- A backend whose every invocation raises an HTTP 429 rate-limit error. -/
def oracleRL : Nat → Except String String := fun _ => .error "429 Too Many Requests"

/-- A backend whose every invocation raises a non-rate-limit error. -/
def oracleBoom : Nat → Except String String := fun _ => .error "connection reset"

/-- An external store entry where the user has locked topic `"T"`. -/
def extLockedT : Option ExtState := some ⟨true, some "T", []⟩

/-- An unlocked initial graph state, as built by the `/research` endpoint. -/
def stGate : TState := ⟨"graph neural networks", false, none, []⟩

/-- A discovery oracle whose LLM call always raises. -/
def oracleExn : Nat → DiscOut := fun _ => .exn "llm down"

/-- No `selected_topic_index` ever present in the graph state. -/
def selNone : Nat → Option Nat := fun _ => none

/-! ## Theorems -/

/-- Helper: the layered extractor returns the direct parse when it succeeds. -/
theorem extract_json_direct (loads : String → Option PyJson) (text : String) (v : PyJson)
    (h : loads text = some v) : extract_json loads text = v := by
  simp [extract_json, h]

/-- C8 counterexample: on the input `"[1, 2]"` the direct `json.loads`
succeeds and yields a JSON *list*, which the extractor returns as-is, so the
extractor does not always return a dict. -/
theorem extract_json_not_always_dict :
    (extract_json loadsListStub "[1, 2]").isDict = false := by
  have h : loadsListStub "[1, 2]" = some (.arr [.num 1, .num 2]) := by
    simp [loadsListStub]
  rw [extract_json_direct loadsListStub "[1, 2]" _ h]
  rfl

/-- C8 (amended): for every `json.loads` behavior and input text the
extractor attempts, in order, the direct parse, the fenced ```json block,
the first-brace block, and the raw-text wrap; it is a total function (no
parse failure escapes it), it returns whatever JSON value the first
successful layer produced, and whenever all three parse layers fail the
result is the dict `{"raw_text": text}`. -/
theorem extract_json_layered (loads : String → Option PyJson) (text : String) :
    (∀ v, loads text = some v → extract_json loads text = v) ∧
    (∀ cs v, loads text = none → fencedExtract text.data = some cs →
       loads (String.mk cs) = some v → extract_json loads text = v) ∧
    (∀ cs v, loads text = none →
       (∀ fs, fencedExtract text.data = some fs → loads (String.mk fs) = none) →
       braceExtract text.data = some cs → loads (String.mk cs) = some v →
       extract_json loads text = v) ∧
    (loads text = none →
       (∀ fs, fencedExtract text.data = some fs → loads (String.mk fs) = none) →
       (∀ bs, braceExtract text.data = some bs → loads (String.mk bs) = none) →
       extract_json loads text = .obj [("raw_text", .str text)] ∧
       (extract_json loads text).isDict = true) := by
  refine ⟨fun v h => by simp [extract_json, h], ?_, ?_, ?_⟩
  · intro cs v h hf hcs
    simp [extract_json, h, hf, hcs]
  · intro cs v h hf hb hcs
    cases hfc : fencedExtract text.data with
    | none => simp [extract_json, h, hfc, extractBraceOrWrap, hb, hcs]
    | some fs => simp [extract_json, h, hfc, hf fs hfc, extractBraceOrWrap, hb, hcs]
  · intro h hf hb
    cases hfc : fencedExtract text.data with
    | none =>
      cases hbc : braceExtract text.data with
      | none => exact ⟨by simp [extract_json, h, hfc, extractBraceOrWrap, hbc], by
          simp [extract_json, h, hfc, extractBraceOrWrap, hbc, PyJson.isDict]⟩
      | some bs => exact ⟨by simp [extract_json, h, hfc, extractBraceOrWrap, hbc, hb bs hbc], by
          simp [extract_json, h, hfc, extractBraceOrWrap, hbc, hb bs hbc, PyJson.isDict]⟩
    | some fs =>
      cases hbc : braceExtract text.data with
      | none => exact ⟨by simp [extract_json, h, hfc, hf fs hfc, extractBraceOrWrap, hbc], by
          simp [extract_json, h, hfc, hf fs hfc, extractBraceOrWrap, hbc, PyJson.isDict]⟩
      | some bs => exact ⟨by
          simp [extract_json, h, hfc, hf fs hfc, extractBraceOrWrap, hbc, hb bs hbc], by
          simp [extract_json, h, hfc, hf fs hfc, extractBraceOrWrap, hbc, hb bs hbc,
            PyJson.isDict]⟩

/-- Witness for C8 on the prose input `"hello"`: every parse layer fails and
the extractor returns the raw-text wrap, a dict. -/
theorem extract_json_layered_witness :
    extract_json loadsNone "hello" = .obj [("raw_text", .str "hello")] ∧
    (extract_json loadsNone "hello").isDict = true :=
  (extract_json_layered loadsNone "hello").2.2.2 rfl
    (fun _ h => Option.noConfusion h) (fun _ h => Option.noConfusion h)

/-- C1: for every (step identity, model, budgeted input) triple, a second
`BaseAgent.run` invocation with the same state returns the identical result,
served from the content-addressed cache (keyed by the hash of system prompt,
model name and budgeted context) as a zero-time success, and the underlying
LLM inference executes exactly once across the two invocations.  Hypotheses:
the cache is cold for this input hash and the single inference succeeds. -/
theorem step_cache_idempotent (loads : String → Option PyJson)
    (llm : String → String → Except String String) (ag : AgentCfg) (cache : Cache) (st : BState)
    (hcold : cache.lookup (computeHash (inputSignature ag
      (truncate_context smart_truncate_fb st ag.maxContextTokens))) = none)
    (raw : String)
    (hok : llm ag.system_prompt (truncate_context smart_truncate_fb st ag.maxContextTokens)
      = .ok raw) :
    (runStep loads llm ag (runStep loads llm ag cache st).cache st).result
      = (runStep loads llm ag cache st).result ∧
    (runStep loads llm ag (runStep loads llm ag cache st).cache st).cacheHit = true ∧
    (runStep loads llm ag cache st).llmCalls
      + (runStep loads llm ag (runStep loads llm ag cache st).cache st).llmCalls = 1 := by
  simp only [runStep, hcold, hok]
  simp [List.lookup]

/-- Witness for C1: a concrete cold-cache run of the SLR agent followed by a
replay of the same state. -/
theorem step_cache_idempotent_witness :
    ([] : Cache).lookup (computeHash (inputSignature agSLR
      (truncate_context smart_truncate_fb stEx agSLR.maxContextTokens))) = none ∧
    ((runStep loadsNone llmOk agSLR (runStep loadsNone llmOk agSLR [] stEx).cache stEx).result
       = (runStep loadsNone llmOk agSLR [] stEx).result ∧
     (runStep loadsNone llmOk agSLR (runStep loadsNone llmOk agSLR [] stEx).cache stEx).cacheHit
       = true ∧
     (runStep loadsNone llmOk agSLR [] stEx).llmCalls
       + (runStep loadsNone llmOk agSLR
           (runStep loadsNone llmOk agSLR [] stEx).cache stEx).llmCalls = 1) :=
  ⟨rfl, step_cache_idempotent loadsNone llmOk agSLR [] stEx rfl "plain completion" rfl⟩

/-- C9: a failed step invocation returns the failure dict
`{error, raw: "Error during execution", agent}` and never writes the cache,
so replaying the identical (system prompt, model, budgeted context) input
re-executes the inference; and in general a run that changes the cache only
stores a success result. -/
theorem failed_step_not_cached (loads loads2 : String → Option PyJson)
    (llm llm2 : String → String → Except String String)
    (ag : AgentCfg) (cache : Cache) (st : BState) (e : String)
    (hcold : cache.lookup (computeHash (inputSignature ag
      (truncate_context smart_truncate_fb st ag.maxContextTokens))) = none)
    (herr : llm ag.system_prompt (truncate_context smart_truncate_fb st ag.maxContextTokens)
      = .error e) :
    (runStep loads llm ag cache st).result = .error e "Error during execution" ag.name ∧
    (runStep loads llm ag cache st).cache = cache ∧
    (runStep loads2 llm2 ag (runStep loads llm ag cache st).cache st).llmCalls = 1 ∧
    (∀ loads3 llm3 c s, (runStep loads3 llm3 ag c s).result.isError = true →
        (runStep loads3 llm3 ag c s).cache = c) := by
  refine ⟨by simp [runStep, hcold, herr], by simp [runStep, hcold, herr], ?_, ?_⟩
  · have hc : (runStep loads llm ag cache st).cache = cache := by simp [runStep, hcold, herr]
    rw [hc]
    simp only [runStep, hcold]
    cases llm2 ag.system_prompt (truncate_context smart_truncate_fb st ag.maxContextTokens) <;>
      rfl
  · intro loads3 llm3 c s
    simp only [runStep]
    cases hl : c.lookup (computeHash (inputSignature ag
        (truncate_context smart_truncate_fb s ag.maxContextTokens))) with
    | none =>
      cases llm3 ag.system_prompt (truncate_context smart_truncate_fb s ag.maxContextTokens) with
      | error _ => intro _; rfl
      | ok _ => intro h; exact absurd h (by simp [StepResult.isError])
    | some r => intro _; rfl

/-- Witness for C9: the SLR agent with a raising backend on a cold cache;
the replay (with the same backend) invokes the LLM again. -/
theorem failed_step_not_cached_witness :
    ([] : Cache).lookup (computeHash (inputSignature agSLR
      (truncate_context smart_truncate_fb stEx agSLR.maxContextTokens))) = none ∧
    ((runStep loadsNone llmBoom agSLR [] stEx).result
       = .error "boom" "Error during execution" agSLR.name ∧
     (runStep loadsNone llmBoom agSLR [] stEx).cache = [] ∧
     (runStep loadsNone llmBoom agSLR
        (runStep loadsNone llmBoom agSLR [] stEx).cache stEx).llmCalls = 1 ∧
     (∀ loads3 llm3 c s, (runStep loads3 llm3 agSLR c s).result.isError = true →
        (runStep loads3 llm3 agSLR c s).cache = c)) :=
  ⟨rfl, failed_step_not_cached loadsNone loadsNone llmBoom llmBoom agSLR [] stEx "boom" rfl rfl⟩

/-- C2 counterexample: an exception raised by `agent.run` and escaping into
the node boundary (`run_agent`'s `except` clause) produces a state update
whose findings map is empty — the error payload is recorded in the history
log only, not in findings, contrary to the claim that every node-local
exception is recorded into both. -/
theorem node_exception_no_findings_cex :
    (run_agent "SLR" "slr" (Except.error "boom")).findings = [] ∧
    (run_agent "SLR" "slr" (Except.error "boom")).history = ["SLR: FAILED - boom"] :=
  ⟨rfl, rfl⟩

/-- C2 (amended): every exception is caught and execution continues — the
node always returns a partial state update — but the two layers record
differently: an exception escaping `agent.run` into the node boundary is
recorded as a FAILED history line with *no* findings entry, while an
exception caught inside `BaseAgent.run`'s LLM/parse section surfaces as the
step wrapper's failure dict, which `run_agent` stores whole under the
node's findings key (with a completion history line).  A success result's
`"response"` value is stored under the findings key. -/
theorem node_boundary_error_handling (agentName agentKey : String)
    (outcome : Except String StepResult) :
    (∀ e, outcome = .error e →
       run_agent agentName agentKey outcome
         = ⟨[], [agentName ++ ": FAILED - " ++ e]⟩) ∧
    (∀ msg raw who, outcome = .ok (.error msg raw who) →
       run_agent agentName agentKey outcome
         = ⟨[(agentKey, errorPayload msg raw who)], [agentName ++ ": Completed"]⟩) ∧
    (∀ resp raw who ih oh, outcome = .ok (.ok resp raw who ih oh) →
       (run_agent agentName agentKey outcome).findings = [(agentKey, resp)]) ∧
    (∀ loads llm (ag : AgentCfg) (cache : Cache) (st : BState) e,
       cache.lookup (computeHash (inputSignature ag
         (truncate_context smart_truncate_fb st ag.maxContextTokens))) = none →
       llm ag.system_prompt (truncate_context smart_truncate_fb st ag.maxContextTokens)
         = .error e →
       run_agent agentName agentKey (.ok (runStep loads llm ag cache st).result)
         = ⟨[(agentKey, errorPayload e "Error during execution" ag.name)],
            [agentName ++ ": Completed"]⟩) := by
  refine ⟨?_, ?_, ?_, ?_⟩
  · intro e h; subst h; rfl
  · intro msg raw who h; subst h; rfl
  · intro resp raw who ih oh h; subst h; rfl
  · intro loads llm ag cache st e hcold herr
    have hres : (runStep loads llm ag cache st).result
        = .error e "Error during execution" ag.name := by simp [runStep, hcold, herr]
    rw [hres]; rfl

/-- Witness for C2: the escaping exception yields history-only recording,
and the step wrapper's caught LLM failure yields the findings payload. -/
theorem node_boundary_error_handling_witness :
    run_agent "SLR" "slr" (Except.error "down") = ⟨[], ["SLR: FAILED - down"]⟩ ∧
    run_agent "SLR" "slr" (.ok (runStep loadsNone llmBoom agSLR [] stEx).result)
      = ⟨[("slr", errorPayload "boom" "Error during execution" agSLR.name)],
         ["SLR: Completed"]⟩ :=
  ⟨(node_boundary_error_handling "SLR" "slr" (Except.error "down")).1 "down" rfl,
   (node_boundary_error_handling "SLR" "slr"
      (.ok (runStep loadsNone llmBoom agSLR [] stEx).result)).2.2.2
      loadsNone llmBoom agSLR [] stEx "boom" rfl rfl⟩

/-- Helper: looking up after the in-place version bump of
`increment_version` maps the bump over the original lookup. -/
theorem lookup_map_bump (tbl : LockTable) (job : String) (g : LockInfo → LockInfo) :
    (tbl.map fun p => if p.1 == job then (p.1, g p.2) else p).lookup job
      = (tbl.lookup job).map g := by
  induction tbl with
  | nil => rfl
  | cons p t ih =>
    rcases p with ⟨k, v⟩
    simp only [List.map_cons]
    by_cases h : k = job
    · subst h
      rw [if_pos (by simp)]
      simp [List.lookup, ih]
    · rw [if_neg (by simp [h])]
      have h' : (job == k) = false := by simp [Ne.symm h]
      simp only [List.lookup, h']
      exact ih

/-- Helper: lookup misses when the key is absent from the key list. -/
theorem lookup_none_of_not_mem_keys (tbl : LockTable) (job : String)
    (h : job ∉ tbl.map Prod.fst) : tbl.lookup job = none := by
  induction tbl with
  | nil => rfl
  | cons p t ih =>
    simp only [List.map_cons, List.mem_cons] at h
    push_neg at h
    have h' : (job == p.1) = false := by simp [h.1]
    simp [List.lookup, h', ih h.2]

/-- Helper: with unique keys, deleting a job's record makes its lookup miss. -/
theorem lookup_erase_self (tbl : LockTable) (job : String)
    (hnd : (tbl.map Prod.fst).Nodup) :
    (tbl.eraseP (fun p => p.1 == job)).lookup job = none := by
  induction tbl with
  | nil => rfl
  | cons p t ih =>
    simp only [List.map_cons, List.nodup_cons] at hnd
    by_cases h : p.1 = job
    · rw [List.eraseP_cons_of_pos (by simp [h])]
      exact lookup_none_of_not_mem_keys t job (h ▸ hnd.1)
    · rw [List.eraseP_cons_of_neg (by simp [h])]
      have h' : (job == p.1) = false := by simp [Ne.symm h]
      simp [List.lookup, h', ih hnd.2]

/-- C3 counterexample: for the resource `"job"`, one acquire→write→release
cycle leaves the caller having observed version 2, yet the very next
successful acquire restarts the version at 1 — the version resets across
cycles instead of increasing strictly. -/
theorem lock_version_resets_cex :
    (increment_version (acquire [] "job" "writer").2 "job").1 = 2 ∧
    get_version
      (acquire
        (release (increment_version (acquire [] "job" "writer").2 "job").2 "job" "writer").2
        "job" "writer").2 "job" = 1 := by
  constructor <;> rfl

/-- C3 (amended): the version is strictly monotone only within a single
hold: while a record is held, every `increment_version` returns and stores
the previous version plus one; a fresh `acquire` on an unheld resource
succeeds and installs version 1; `release` by the owner deletes the record
(observed version drops to 0), and a subsequent re-acquire restarts the
version at 1 rather than continuing the old sequence. -/
theorem lock_version_semantics (tbl : LockTable) (job owner owner2 : String) :
    (∀ info, tbl.lookup job = some info →
       (increment_version tbl job).1 = get_version tbl job + 1 ∧
       get_version (increment_version tbl job).2 job = get_version tbl job + 1) ∧
    (tbl.lookup job = none →
       (acquire tbl job owner).1 = true ∧
       get_version (acquire tbl job owner).2 job = 1) ∧
    (∀ info, tbl.lookup job = some info → info.owner = owner →
       (tbl.map Prod.fst).Nodup →
       (release tbl job owner).1 = true ∧
       is_locked (release tbl job owner).2 job = false ∧
       get_version (release tbl job owner).2 job = 0 ∧
       get_version (acquire (release tbl job owner).2 job owner2).2 job = 1) := by
  refine ⟨?_, ?_, ?_⟩
  · intro info hl
    have hmap := lookup_map_bump tbl job (fun i => ⟨i.owner, i.version + 1⟩)
    constructor
    · simp [increment_version, get_version, hl]
    · simp only [increment_version, hl, get_version]
      rw [hmap, hl]
      simp [get_version, hl]
  · intro hl
    refine ⟨by simp [acquire, hl], ?_⟩
    simp [acquire, hl, get_version, List.lookup]
  · intro info hl hown hnd
    have hrel : release tbl job owner = (true, tbl.eraseP (fun p => p.1 == job)) := by
      simp [release, hl, hown]
    have herase := lookup_erase_self tbl job hnd
    refine ⟨by rw [hrel], ?_, ?_, ?_⟩
    · simp [is_locked, hrel, herase]
    · simp [get_version, hrel, herase]
    · simp only [hrel]
      simp [acquire, herase, get_version, List.lookup]

/-- Witness for C3: a singleton table held by `"w"` on `"doc"`. -/
theorem lock_version_semantics_witness :
    (([("doc", (⟨"w", 3⟩ : LockInfo))] : LockTable).lookup "doc" = some ⟨"w", 3⟩) ∧
    ((increment_version [("doc", (⟨"w", 3⟩ : LockInfo))] "doc").1
       = get_version [("doc", (⟨"w", 3⟩ : LockInfo))] "doc" + 1 ∧
     get_version (increment_version [("doc", (⟨"w", 3⟩ : LockInfo))] "doc").2 "doc"
       = get_version [("doc", (⟨"w", 3⟩ : LockInfo))] "doc" + 1) ∧
    ((release [("doc", (⟨"w", 3⟩ : LockInfo))] "doc" "w").1 = true ∧
     is_locked (release [("doc", (⟨"w", 3⟩ : LockInfo))] "doc" "w").2 "doc" = false ∧
     get_version (release [("doc", (⟨"w", 3⟩ : LockInfo))] "doc" "w").2 "doc" = 0 ∧
     get_version
       (acquire (release [("doc", (⟨"w", 3⟩ : LockInfo))] "doc" "w").2 "doc" "w2").2 "doc"
       = 1) :=
  ⟨rfl,
   (lock_version_semantics [("doc", ⟨"w", 3⟩)] "doc" "w" "w2").1 ⟨"w", 3⟩ rfl,
   (lock_version_semantics [("doc", ⟨"w", 3⟩)] "doc" "w" "w2").2.2 ⟨"w", 3⟩ rfl rfl
     (by decide)⟩

/-- Helper: the greedy allocation loop produces a run of verbatim findings
entries followed by at most one smart-truncated entry (the first
non-fitting one), after which every lower-priority key is dropped whole. -/
theorem alloc_shape (smartT : String → Nat → String) (fnd : List (String × String)) :
    ∀ (keys : List String) (rem : Int), ∃ whole tail,
      allocFindings smartT fnd keys rem = whole ++ tail ∧
      (∀ p ∈ whole, fnd.lookup p.1 = some p.2) ∧
      (tail = [] ∨ ∃ k v r, fnd.lookup k = some v ∧ ¬((v.length : Int) < r) ∧
        tail = [(k, smartT v r.toNat)]) := by
  intro keys
  induction keys with
  | nil =>
    intro rem
    exact ⟨[], [], rfl, by simp, Or.inl rfl⟩
  | cons k ks ih =>
    intro rem
    cases hl : fnd.lookup k with
    | none =>
      obtain ⟨w, t, he, hw, ht⟩ := ih rem
      exact ⟨w, t, by simp only [allocFindings, hl]; exact he, hw, ht⟩
    | some v =>
      by_cases hfit : (v.length : Int) < rem
      · obtain ⟨w, t, he, hw, ht⟩ := ih (rem - v.length)
        refine ⟨(k, v) :: w, t, ?_, ?_, ht⟩
        · simp only [allocFindings, hl, if_pos hfit, he, List.cons_append]
        · intro p hp
          rcases List.mem_cons.mp hp with h | h
          · subst h; exact hl
          · exact hw p h
      · exact ⟨[], [(k, smartT v rem.toNat)],
          by simp only [allocFindings, hl, if_neg hfit]; rfl,
          by simp, Or.inr ⟨k, v, rem, hl, hfit, rfl⟩⟩

/-- C4 counterexample: with the state `csEx` (one `slr` finding) and a
1-token budget, the budget is smaller than the core payload, yet the
budgeter returns the full serialized state — the finding text `"SLRDATA"`
appears in the output instead of all findings being omitted. -/
theorem budget_floor_cex :
    ((1 : Int) * 4 < (coreStr csEx).length ∧ remainingChars csEx 1 < 0) ∧
    truncate_context smart_truncate_fb csEx 1 = dumpState csEx ∧
    containsSub (truncate_context smart_truncate_fb csEx 1) "SLRDATA" = true := by
  refine ⟨by decide, rfl, by decide⟩

/-- C4 (amended): when the findings map is empty or the remaining budget
(four characters per token, minus the core payload and a 2000-character
buffer) is non-positive, the budgeter returns the *whole* serialized state
(core fields included, but findings not omitted); otherwise the output is
the core fields verbatim plus findings allocated in the fixed priority
order — whole entries while they fit, then at most one smart-truncated
entry, after which all lower-priority findings are dropped whole. -/
theorem budgeter_semantics (smartT : String → Nat → String) (s : BState) (mt : Nat) :
    ((s.findings = [] ∨ remainingChars s mt ≤ 0) →
       truncate_context smartT s mt = dumpState s) ∧
    (s.findings ≠ [] → 0 < remainingChars s mt →
       ∃ whole tail,
         truncate_context smartT s mt
           = dumpObj (coreFields s ++ [("findings", dumpObj (whole ++ tail))]) ∧
         (∀ p ∈ whole, s.findings.lookup p.1 = some p.2) ∧
         (tail = [] ∨ ∃ k v r, s.findings.lookup k = some v ∧ ¬((v.length : Int) < r) ∧
           tail = [(k, smartT v r.toNat)])) := by
  constructor
  · intro h
    have hcond : (s.findings.isEmpty || decide (remainingChars s mt ≤ 0)) = true := by
      rcases h with h | h
      · simp [h]
      · simp [h]
    simp only [truncate_context]
    rw [if_pos (by simpa using hcond)]
  · intro hne hpos
    have hcond : (s.findings.isEmpty || decide (remainingChars s mt ≤ 0)) = false := by
      have h1 : s.findings.isEmpty = false := by
        cases hf : s.findings with
        | nil => exact absurd hf hne
        | cons a t => rfl
      have h2 : decide (remainingChars s mt ≤ 0) = false := by
        simp [not_le.mpr hpos]
      simp [h1, h2]
    obtain ⟨w, t, he, hw, ht⟩ := alloc_shape smartT s.findings priorityOrder
      (remainingChars s mt)
    refine ⟨w, t, ?_, hw, ht⟩
    simp only [truncate_context]
    rw [if_neg (by simpa using hcond), he]

/-- Witness for C4: both branches at concrete inputs — the floor branch on
`csEx` with a tiny budget, and the allocation branch on a state with one
fitting `slr` finding and a large budget. -/
theorem budgeter_semantics_witness :
    truncate_context smart_truncate_fb csEx 1 = dumpState csEx ∧
    (∃ whole tail,
       truncate_context smart_truncate_fb csEx 4096
         = dumpObj (coreFields csEx ++ [("findings", dumpObj (whole ++ tail))]) ∧
       (∀ p ∈ whole, csEx.findings.lookup p.1 = some p.2) ∧
       (tail = [] ∨ ∃ k v r, csEx.findings.lookup k = some v ∧ ¬((v.length : Int) < r) ∧
         tail = [(k, smart_truncate_fb v r.toNat)])) :=
  ⟨(budgeter_semantics smart_truncate_fb csEx 1).1 (Or.inr (by decide)),
   (budgeter_semantics smart_truncate_fb csEx 4096).2 (by decide) (by decide)⟩

/-- Helper: a handle construction returns the pre-advance cursor. -/
theorem gl_fst (K : Nat) (st : GroqSt) : (get_langchain_llm K st).1 = st.keyIndex := rfl

/-- Helper: a handle construction advances the cursor by one, modulo the
pool size. -/
theorem gl_key (K : Nat) (st : GroqSt) :
    ((get_langchain_llm K st).2).keyIndex = (st.keyIndex + 1) % max K 1 := by
  by_cases h : st.keyIndex ∈ st.cache <;> simp [get_langchain_llm, getNextKeyIndex, h]

/-- Helper: a handle construction caches a client for the selected index
unless one is already cached. -/
theorem gl_cache (K : Nat) (st : GroqSt) :
    ((get_langchain_llm K st).2).cache
      = if st.keyIndex ∈ st.cache then st.cache else st.keyIndex :: st.cache := by
  by_cases h : st.keyIndex ∈ st.cache <;> simp [get_langchain_llm, getNextKeyIndex, h]

/-- Helper: the client cache keeps at most one client per credential index. -/
theorem gl_cache_nodup (K : Nat) (st : GroqSt) (h : st.cache.Nodup) :
    ((get_langchain_llm K st).2).cache.Nodup := by
  rw [gl_cache]
  by_cases hm : st.keyIndex ∈ st.cache
  · simpa [hm]
  · simp [hm, h]

/-- Helper: across `n` handle constructions the selected indices are
`keyIndex, keyIndex+1, …` modulo `K`, the cursor advances once per
construction, and cache uniqueness is preserved. -/
theorem handleSeq_sel (K : Nat) (hK : 0 < K) :
    ∀ (n : Nat) (st : GroqSt), st.keyIndex < K →
      (handleSeq K st n).1 = (List.range n).map (fun t => (st.keyIndex + t) % K) ∧
      (handleSeq K st n).2.keyIndex = (st.keyIndex + n) % K ∧
      (st.cache.Nodup → (handleSeq K st n).2.cache.Nodup) := by
  intro n
  induction n with
  | zero =>
    intro st hs
    exact ⟨rfl, by simpa [handleSeq] using (Nat.mod_eq_of_lt hs).symm, fun h => h⟩
  | succ n ih =>
    intro st hs
    have hmax : max K 1 = K := Nat.max_eq_left hK
    have hkey1 : ((get_langchain_llm K st).2).keyIndex = (st.keyIndex + 1) % K := by
      rw [gl_key, hmax]
    have hlt1 : ((get_langchain_llm K st).2).keyIndex < K := by
      rw [hkey1]; exact Nat.mod_lt _ hK
    obtain ⟨hsel, hidx, hnd⟩ := ih (get_langchain_llm K st).2 hlt1
    refine ⟨?_, ?_, ?_⟩
    · rw [show (handleSeq K st (n + 1)).1
          = (get_langchain_llm K st).1 :: (handleSeq K (get_langchain_llm K st).2 n).1
        from rfl, gl_fst, hsel, hkey1, List.range_succ_eq_map, List.map_cons, List.map_map]
      refine congrArg₂ List.cons ?_ ?_
      · simpa using (Nat.mod_eq_of_lt hs).symm
      · apply List.map_congr_left
        intro a _
        simp only [Function.comp]
        have h1 : st.keyIndex + 1 + a = st.keyIndex + (a + 1) := by omega
        rw [Nat.mod_add_mod, h1]
    · rw [show (handleSeq K st (n + 1)).2
          = (handleSeq K (get_langchain_llm K st).2 n).2 from rfl, hidx, hkey1,
        Nat.mod_add_mod]
      congr 1
      omega
    · intro hc
      exact hnd (gl_cache_nodup K st hc)

/-- Helper: one full block of `K` consecutive rotations selects each valid
credential index exactly once. -/
theorem count_block (K : Nat) (hK : 0 < K) (s j : Nat) (hj : j < K) :
    ((List.range K).map (fun t => (s + t) % K)).count j = 1 := by
  have hfun : ((List.range K).map (fun t => (s + t) % K))
      = ((List.range K).map (fun t => (s % K + t) % K)) := by
    apply List.map_congr_left
    intro t _
    rw [Nat.mod_add_mod]
  rw [hfun]
  have hrK : s % K < K := Nat.mod_lt _ hK
  have hsplit : List.range K
      = List.range (K - s % K) ++ (List.range (s % K)).map ((K - s % K) + ·) := by
    have h := List.range_add (K - s % K) (s % K)
    rw [Nat.sub_add_cancel (le_of_lt hrK)] at h
    exact h
  rw [hsplit, List.map_append, List.count_append]
  have hA : (List.range (K - s % K)).map (fun t => (s % K + t) % K)
      = (List.range (K - s % K)).map (fun t => s % K + t) := by
    apply List.map_congr_left
    intro t ht
    have := List.mem_range.mp ht
    exact Nat.mod_eq_of_lt (by omega)
  have hB : ((List.range (s % K)).map ((K - s % K) + ·)).map (fun t => (s % K + t) % K)
      = List.range (s % K) := by
    rw [List.map_map]
    have hpt : ∀ t ∈ List.range (s % K),
        ((fun t => (s % K + t) % K) ∘ ((K - s % K) + ·)) t = id t := by
      intro t ht
      have htr := List.mem_range.mp ht
      simp only [Function.comp, id]
      have h1 : s % K + (K - s % K + t) = K + t := by omega
      rw [h1, Nat.add_mod_left, Nat.mod_eq_of_lt (by omega)]
    rw [List.map_congr_left hpt, List.map_id]
  rw [hA, hB]
  by_cases hjr : j < s % K
  · have hA0 : ((List.range (K - s % K)).map (fun t => s % K + t)).count j = 0 := by
      apply List.count_eq_zero.mpr
      intro hmem
      obtain ⟨t, _, hte⟩ := List.mem_map.mp hmem
      omega
    have hB1 : (List.range (s % K)).count j = 1 :=
      List.count_eq_one_of_mem (List.nodup_range _) (List.mem_range.mpr hjr)
    omega
  · push_neg at hjr
    have hB0 : (List.range (s % K)).count j = 0 := by
      apply List.count_eq_zero.mpr
      intro hmem
      have := List.mem_range.mp hmem
      omega
    have hinj : Function.Injective (fun t => s % K + t) := fun a b h =>
      Nat.add_left_cancel h
    have hA1 : ((List.range (K - s % K)).map (fun t => s % K + t)).count j = 1 := by
      have hje : j = s % K + (j - s % K) := by omega
      rw [hje, List.count_map_of_injective _ _ hinj]
      exact List.count_eq_one_of_mem (List.nodup_range _) (List.mem_range.mpr (by omega))
    omega

/-- Helper: across `m` full rotation blocks each valid credential index is
selected exactly `m` times, from any starting cursor. -/
theorem count_multiple (K : Nat) (hK : 0 < K) (j : Nat) (hj : j < K) :
    ∀ (m s : Nat), ((List.range (m * K)).map (fun t => (s + t) % K)).count j = m := by
  intro m
  induction m with
  | zero => intro s; simp
  | succ m ih =>
    intro s
    have hsm : (m + 1) * K = m * K + K := by ring
    rw [hsm, List.range_add, List.map_append, List.count_append, ih s]
    have hshift : ((List.range K).map ((m * K) + ·)).map (fun t => (s + t) % K)
        = (List.range K).map (fun t => ((s + m * K) + t) % K) := by
      rw [List.map_map]
      apply List.map_congr_left
      intro t _
      simp only [Function.comp]
      congr 1
      omega
    rw [hshift, count_block K hK (s + m * K) j hj]

/-- C6: for a pool of `K ≥ 1` credentials and any `N = m·K` sequential
handle constructions, every credential index is selected exactly `m = N/K`
times; the round-robin cursor advances exactly once per construction
(ending at `start + N (mod K)`); and the client cache keeps at most one
client instance per credential index. -/
theorem rotation_fairness (K s m : Nat) (c h : List Nat) (hK : 0 < K) (hs : s < K) :
    (∀ j, j < K → (handleSeq K ⟨s, c, h⟩ (m * K)).1.count j = m) ∧
    (handleSeq K ⟨s, c, h⟩ (m * K)).2.keyIndex = (s + m * K) % K ∧
    (c.Nodup → (handleSeq K ⟨s, c, h⟩ (m * K)).2.cache.Nodup) := by
  obtain ⟨hsel, hidx, hnd⟩ := handleSeq_sel K hK (m * K) ⟨s, c, h⟩ hs
  exact ⟨fun j hj => by rw [hsel]; exact count_multiple K hK j hj m s, hidx, hnd⟩

/-- Witness for C6: two credentials, four constructions from a fresh
provider state — each credential selected twice. -/
theorem rotation_fairness_witness :
    (0 : Nat) < 2 ∧ (0 : Nat) < 2 ∧
    ((∀ j, j < 2 → (handleSeq 2 ⟨0, [], []⟩ (2 * 2)).1.count j = 2) ∧
     (handleSeq 2 ⟨0, [], []⟩ (2 * 2)).2.keyIndex = (0 + 2 * 2) % 2 ∧
     (([] : List Nat).Nodup → (handleSeq 2 ⟨0, [], []⟩ (2 * 2)).2.cache.Nodup)) :=
  ⟨by decide, by decide, rotation_fairness 2 0 2 [] [] (by decide) (by decide)⟩

/-- Helper: Python's `(-1) % K` is `K - 1` for positive `K`. -/
theorem emod_neg_one (K : Nat) (hK : 0 < K) : (-1 : Int) % (K : Int) = (K : Int) - 1 := by
  have hK' : (1 : Int) ≤ (K : Int) := by exact_mod_cast hK
  have h1 : (-1 : Int) = ((K : Int) - 1) + (K : Int) * (-1) := by ring
  rw [h1, Int.add_mul_emod_self_left]
  exact Int.emod_eq_of_lt (by omega) (by omega)

/-- Helper: after the cursor advanced past index `s`, Python's
`(self._key_index - 1) % len(api_keys)` recovers exactly `s` — the
credential just used. -/
theorem pyPrevIndex_succ (K s : Nat) (hK : 0 < K) (hs : s < K) :
    pyPrevIndex K ((s + 1) % K) = s := by
  unfold pyPrevIndex
  rcases Nat.lt_or_ge (s + 1) K with h | h
  · rw [Nat.mod_eq_of_lt h]
    have h1 : ((↑(s + 1) : Int) - 1) = (s : Int) := by push_cast; ring
    rw [h1, Int.emod_eq_of_lt (by omega) (by exact_mod_cast hs)]
    simp
  · have hsk : s + 1 = K := by omega
    rw [hsk, Nat.mod_self]
    have h0 : (((0 : Nat) : Int) - 1) = (-1 : Int) := by norm_num
    rw [h0, emod_neg_one K hK]
    omega

/-- C5: `invoke_with_retry` (a) propagates a non-rate-limit error
immediately after a single inference, (b) propagates a rate-limit error
immediately when the pool has a single credential, and (c) when every
attempt up to the retry ceiling is classified rate-limited (markers such as
'429', 'rate limit', 'too many requests'), it discards the just-used
credential's cached client each time, advances to the next credential,
sleeps 1s, 2s, 4s, and finally re-raises the last error. -/
theorem invoke_with_retry_spec (K : Nat) (st : GroqSt) (oracle : Nat → Except String String) :
    (∀ e, oracle 0 = .error e → isRateLimitErr e = false →
       invoke_with_retry K oracle st
         = (.raise e, (get_langchain_llm K st).2, ⟨1, [], []⟩)) ∧
    (∀ e, K = 1 → oracle 0 = .error e →
       invoke_with_retry K oracle st
         = (.raise e, (get_langchain_llm K st).2, ⟨1, [], []⟩)) ∧
    (∀ e0 e1 e2, 1 < K → st.keyIndex < K →
       oracle 0 = .error e0 → oracle 1 = .error e1 → oracle 2 = .error e2 →
       isRateLimitErr e0 = true → isRateLimitErr e1 = true → isRateLimitErr e2 = true →
       (invoke_with_retry K oracle st).1 = .raise e2 ∧
       (invoke_with_retry K oracle st).2.2.invokes = 3 ∧
       (invoke_with_retry K oracle st).2.2.sleeps = [1, 2, 4] ∧
       (invoke_with_retry K oracle st).2.2.discarded
         = [st.keyIndex, (st.keyIndex + 1) % K, (st.keyIndex + 2) % K] ∧
       (invoke_with_retry K oracle st).2.1.keyIndex = (st.keyIndex + 3) % K) := by
  refine ⟨?_, ?_, ?_⟩
  · intro e h0 hrl
    simp [invoke_with_retry, MAX_RETRIES, invokeWithRetryGo, h0, hrl]
  · intro e hK h0
    subst hK
    simp [invoke_with_retry, MAX_RETRIES, invokeWithRetryGo, h0]
  · intro e0 e1 e2 hK hs h0 h1 h2 hrl0 hrl1 hrl2
    have hK0 : 0 < K := by omega
    have hmax : max K 1 = K := Nat.max_eq_left (by omega)
    have hc0 : pyPrevIndex K ((st.keyIndex + 1) % K) = st.keyIndex :=
      pyPrevIndex_succ K _ hK0 hs
    have hlt1 : (st.keyIndex + 1) % K < K := Nat.mod_lt _ hK0
    have hc1 : pyPrevIndex K (((st.keyIndex + 1) % K + 1) % K) = (st.keyIndex + 1) % K :=
      pyPrevIndex_succ K _ hK0 hlt1
    have hlt2 : ((st.keyIndex + 1) % K + 1) % K < K := Nat.mod_lt _ hK0
    have hc2 : pyPrevIndex K ((((st.keyIndex + 1) % K + 1) % K + 1) % K)
        = ((st.keyIndex + 1) % K + 1) % K :=
      pyPrevIndex_succ K _ hK0 hlt2
    have ha1 : ((st.keyIndex + 1) % K + 1) % K = (st.keyIndex + 2) % K := by
      rw [Nat.mod_add_mod]
    have ha2 : ((st.keyIndex + 2) % K + 1) % K = (st.keyIndex + 3) % K := by
      rw [Nat.mod_add_mod]
    have hc1' : pyPrevIndex K ((st.keyIndex + 2) % K) = (st.keyIndex + 1) % K := by
      rw [ha1] at hc1; exact hc1
    have hc2' : pyPrevIndex K ((st.keyIndex + 3) % K) = (st.keyIndex + 2) % K := by
      rw [ha1, ha2] at hc2; exact hc2
    refine ⟨?_, ?_, ?_, ?_, ?_⟩ <;>
      simp [invoke_with_retry, MAX_RETRIES, invokeWithRetryGo, h0, h1, h2,
        hrl0, hrl1, hrl2, hK, hmax, get_langchain_llm, getNextKeyIndex,
        apply_ite GroqSt.keyIndex, hc0, hc1, hc2, hc1', hc2', ha1, ha2]

/-- Witness for C5: all three behaviors at concrete inputs — a non-429
error with two keys, a 429 with a single key, and three consecutive 429s
with two keys. -/
theorem invoke_with_retry_spec_witness :
    invoke_with_retry 2 oracleBoom ⟨0, [], []⟩
      = (.raise "connection reset", (get_langchain_llm 2 ⟨0, [], []⟩).2, ⟨1, [], []⟩) ∧
    invoke_with_retry 1 oracleRL ⟨0, [], []⟩
      = (.raise "429 Too Many Requests", (get_langchain_llm 1 ⟨0, [], []⟩).2, ⟨1, [], []⟩) ∧
    ((invoke_with_retry 2 oracleRL ⟨0, [], []⟩).1 = .raise "429 Too Many Requests" ∧
     (invoke_with_retry 2 oracleRL ⟨0, [], []⟩).2.2.invokes = 3 ∧
     (invoke_with_retry 2 oracleRL ⟨0, [], []⟩).2.2.sleeps = [1, 2, 4] ∧
     (invoke_with_retry 2 oracleRL ⟨0, [], []⟩).2.2.discarded = [0, (0 + 1) % 2, (0 + 2) % 2] ∧
     (invoke_with_retry 2 oracleRL ⟨0, [], []⟩).2.1.keyIndex = (0 + 3) % 2) :=
  ⟨(invoke_with_retry_spec 2 ⟨0, [], []⟩ oracleBoom).1 "connection reset" rfl (by decide),
   (invoke_with_retry_spec 1 ⟨0, [], []⟩ oracleRL).2.1 "429 Too Many Requests" rfl rfl,
   (invoke_with_retry_spec 2 ⟨0, [], []⟩ oracleRL).2.2 "429 Too Many Requests"
     "429 Too Many Requests" "429 Too Many Requests" (by decide) (by decide)
     rfl rfl rfl (by decide) (by decide) (by decide)⟩

/-- C7 (code-bug evaluation): the conditional route does hold the graph at
the gate while `topic_locked` is false, and the lock agent does observe an
external lock and return `topic_locked=True` — but `run_agent` returns only
`{"findings", "history"}`, so the node wrappers' `result.get("topic_locked",
False)` always merges `False` into the graph state: however many gate
rounds run, and whatever the external session store says, the graph state
never becomes locked and the route loops back to `topic_discovery`
forever. -/
theorem topic_gate_lock_dropped (oracles : Nat → DiscOut) (selIdx : Nat → Option Nat)
    (ext : Option ExtState) (st : TState) (n : Nat) (hst : st.topic_locked = false) :
    (gateIter oracles selIdx n ext st).1.topic_locked = false ∧
    topic_gate (gateIter oracles selIdx n ext st).1 = GateRoute.topic_discovery ∧
    (∀ es st', es.topic_locked = true → st'.selected_topic = none →
       topicLockRun (some es) none st' = ⟨true, es.selected_topic, none⟩ ∧
       (topic_lock_node (some es) none st').topic_locked = false) := by
  have hiter : ∀ (m : Nat) (ex : Option ExtState) (s : TState), s.topic_locked = false →
      (gateIter oracles selIdx m ex s).1.topic_locked = false := by
    intro m
    induction m with
    | zero => intro ex s h; exact h
    | succ m ih => intro ex s _; exact ih _ _ rfl
  refine ⟨hiter n ext st hst, ?_, ?_⟩
  · simp [topic_gate, hiter n ext st hst]
  · intro es st' hes hsel
    constructor
    · cases hms : st'.topic_suggestions <;>
        simp [topicLockRun, hsel, hms, topicLockRun.topicLockExternal, hes]
    · rfl

/-- Witness for C7: an externally locked session (`topic = "T"`), an
unlocked graph state, and two gate rounds with a raising LLM. -/
theorem topic_gate_lock_dropped_witness :
    (gateIter oracleExn selNone 2 extLockedT stGate).1.topic_locked = false ∧
    topic_gate (gateIter oracleExn selNone 2 extLockedT stGate).1
      = GateRoute.topic_discovery ∧
    (∀ es st', es.topic_locked = true → st'.selected_topic = none →
       topicLockRun (some es) none st' = ⟨true, es.selected_topic, none⟩ ∧
       (topic_lock_node (some es) none st').topic_locked = false) :=
  topic_gate_lock_dropped oracleExn selNone extLockedT stGate 2 rfl

/-- C10 (code-bug evaluation): when the suggestion LLM call raises (or its
output is not valid JSON), `TopicDiscoveryAgent.run` does auto-satisfy at
the agent level — it returns `topic_locked=True` with the fabricated topic
`'A Comprehensive Survey on {task}'` without any user selection — but the
node wrapper discards the flag, so the graph state stays unlocked and the
gate routes back to discovery instead of proceeding. -/
theorem discovery_fallback_autolock (ext : Option ExtState) (st : TState) (e : String)
    (hlock : st.topic_locked = false) (hsug : st.topic_suggestions = []) :
    (topicDiscoveryRun (.exn e) ext st).1 = discoveryFallback st.task ∧
    (topicDiscoveryRun (.exn e) ext st).1.topic_locked = true ∧
    (topicDiscoveryRun (.exn e) ext st).1.selected_topic
      = some ("A Comprehensive Survey on " ++ st.task) ∧
    (∀ selected suggestions,
       (topicDiscoveryRun (.parsed true false selected suggestions) ext st).1
         = discoveryFallback st.task) ∧
    (gateRound (.exn e) none ext st).1.topic_locked = false ∧
    topic_gate (gateRound (.exn e) none ext st).1 = GateRoute.topic_discovery := by
  have hmain : (topicDiscoveryRun (.exn e) ext st).1 = discoveryFallback st.task := by
    simp [topicDiscoveryRun, hlock, hsug]
  refine ⟨hmain, ?_, ?_, ?_, rfl, rfl⟩
  · rw [hmain]; rfl
  · rw [hmain]; rfl
  · intro selected suggestions
    simp [topicDiscoveryRun, hlock, hsug]

/-- Witness for C10: the raising LLM on the fresh unlocked graph state. -/
theorem discovery_fallback_autolock_witness :
    (topicDiscoveryRun (.exn "llm down") none stGate).1 = discoveryFallback stGate.task ∧
    (topicDiscoveryRun (.exn "llm down") none stGate).1.topic_locked = true ∧
    (topicDiscoveryRun (.exn "llm down") none stGate).1.selected_topic
      = some ("A Comprehensive Survey on " ++ stGate.task) ∧
    (∀ selected suggestions,
       (topicDiscoveryRun (.parsed true false selected suggestions) none stGate).1
         = discoveryFallback stGate.task) ∧
    (gateRound (.exn "llm down") none none stGate).1.topic_locked = false ∧
    topic_gate (gateRound (.exn "llm down") none none stGate).1
      = GateRoute.topic_discovery :=
  discovery_fallback_autolock none stGate "llm down" rfl rfl

end ResearchPipeline
